import Mathlib

/-! Shallow embedding of `src/utils/training.py` of the
TAO-like-PyTorch-Classifier repository, together with proofs about the
training loop engine (`trainModel`), the optimizer/scheduler factories
(`getOptimizer`, `getScheduler`) and the class-mapping extractor
(`getClassMapping`).

Modelling conventions:
- tensors/weights, optimizer state, scheduler state and batches are
  abstract type parameters `W`, `O`, `S`, `B`; the numeric effects of
  `model(inputs)`, `criterion`, `torch.max`, `loss.backward();
  optimizer.step()` and `scheduler.step()` are supplied by a `TrainEnv`
  record of pure functions (floats are modelled as rationals);
- `deepcopy(model.state_dict())` is value copying, which is implicit in a
  pure embedding;
- logging is ignored, except for the final
  `LOGGER.info(f".. {bestRecord:4f}.")` statement, which in Python raises
  a `TypeError` when `bestRecord` is still `None` (the `numEpochs = 0`
  case); that failure is modelled because it is observable behaviour;
- `raise` is modelled with `Except.error`.
-/

namespace Tao

/-- The two phases of an epoch, the list `["train", "val"]` (written with single quotes in the source). -/
inductive Phase where
  | train
  | val
deriving DecidableEq, Repr

/-- Source constant `AVAILABLE_OPTIMIZER = ["sgd", "rmsprop", "adam", "adamw"]`. -/
def AVAILABLE_OPTIMIZER : List String := ["sgd", "rmsprop", "adam", "adamw"]

/-- Source constant `AVAILABLE_SCHEDULER = ["step", "cosine"]`. -/
def AVAILABLE_SCHEDULER : List String := ["step", "cosine"]

/-- Source constant `AVAILABLE_STANDARD = ["loss", "acc"]`. -/
def AVAILABLE_STANDARD : List String := ["loss", "acc"]

/-- The optimizer object returned by `getOptimizer`: which torch
constructor was called and with which arguments.  `P` is the type of the
`params` argument. -/
inductive OptimizerHandle (P : Type) where
  | sgd (params : P) (lr momentum weight_decay : ℚ)
  | rmsprop (params : P) (lr momentum weight_decay alpha : ℚ)
  | adam (params : P) (lr : ℚ) (betas : ℚ × ℚ) (weight_decay : ℚ)
  | adamw (params : P) (lr : ℚ) (betas : ℚ × ℚ) (weight_decay : ℚ)
deriving DecidableEq

/-- The scheduler object returned by `getScheduler`: which torch
constructor was called and with which arguments.  `O` is the type of the
bound optimizer. -/
inductive SchedulerHandle (O : Type) where
  | stepLR (optimizer : O) (step_size : ℕ) (gamma : ℚ)
  | cosineAnnealingLR (optimizer : O) (T_max : ℕ) (eta_min : ℚ)
deriving DecidableEq

/-- Model of `name.lower()` as applied by the factories: ASCII lower-casing,
modelled structurally over the character list (the factory names are
ASCII). -/
def pyLower (s : String) : String := String.mk (s.data.map Char.toLower)

/-- Embedding of `getOptimizer`.  The Python function dispatches on
`name.lower()`; falling off the end of the `elif` chain (unreachable
after the membership test) returns `None`, modelled by `Option`. -/
def getOptimizer {P : Type} (params : P) (name : String) (lr momentum weight_decay alpha : ℚ)
    (betas : ℚ × ℚ) : Except String (Option (OptimizerHandle P)) :=
  if pyLower name ∉ AVAILABLE_OPTIMIZER then
    Except.error "The optimizer is not implemented in this TAO-like pytorch classifier."
  else if pyLower name = "sgd" then
    Except.ok (some (OptimizerHandle.sgd params lr momentum weight_decay))
  else if pyLower name = "rmsprop" then
    Except.ok (some (OptimizerHandle.rmsprop params lr momentum weight_decay alpha))
  else if pyLower name = "adam" then
    Except.ok (some (OptimizerHandle.adam params lr betas weight_decay))
  else if pyLower name = "adamw" then
    Except.ok (some (OptimizerHandle.adamw params lr betas weight_decay))
  else
    Except.ok none

/-- Embedding of `getScheduler`. -/
def getScheduler {O : Type} (name : String) (optimizer : O) (numEpochs : ℕ)
    (stepSize : ℕ) (gamma : ℚ) (lrMin : ℚ) : Except String (Option (SchedulerHandle O)) :=
  if pyLower name ∉ AVAILABLE_SCHEDULER then
    Except.error "The scheduler is not implemented in this TAO-like pytorch classifier."
  else if pyLower name = "step" then
    Except.ok (some (SchedulerHandle.stepLR optimizer stepSize gamma))
  else if pyLower name = "cosine" then
    Except.ok (some (SchedulerHandle.cosineAnnealingLR optimizer numEpochs lrMin))
  else
    Except.ok none

/-- A torchvision-style dataset as far as `getClassMapping` reads it:
only its `class_to_idx` table. -/
structure ImageFolderDataset where
  class_to_idx : List (String × ℕ)
deriving DecidableEq

/-- Embedding of `getClassMapping`.  The first component is the result
(`raise` as `Except.error`), the second the list of writes performed via
`saveDictAsYml` (path, dictionary), so that "raises before any write" is
visible in the model. -/
def getClassMapping (dataset : ImageFolderDataset) (savepath : Option String) (save : Bool) :
    Except String (List (String × ℕ)) × List (String × List (String × ℕ)) :=
  let mapping := dataset.class_to_idx
  if save then
    match savepath with
    | none => (Except.error "The savepath cannot be None if save=True", [])
    | some p => (Except.ok mapping, [(p, mapping)])
  else
    (Except.ok mapping, [])

/-- The numeric/stateful collaborators of `trainModel`.  `W` = model
weights (`model.state_dict()` value), `O` = optimizer internal state
(including the current learning rates), `S` = scheduler internal state,
`B` = one batch `(inputs, labels)` of a dataloader.

The dataloader is restartable: it yields the same finite batch list on
every epoch.  Forward-pass semantics may depend on the phase because
`model.train()` / `model.eval()` change module behaviour. -/
structure TrainEnv (W O S B : Type) where
  dataloaders : Phase → List B
  datasetSize : Phase → ℕ
  batchSize : B → ℕ
  lossVal : Phase → W → B → ℚ
  correctsVal : Phase → W → B → ℕ
  optStep : W → O → B → W × O
  schedStep : S → O → S × O

/-- Accumulator of the per-batch loop of one phase of one epoch:
current weights and optimizer state, the running `epochLoss` and
`epochCorrects`, and the number of batches consumed. -/
structure BatchAcc (W O : Type) where
  w : W
  o : O
  runningLoss : ℚ
  runningCorrects : ℕ
  n : ℕ
deriving DecidableEq

/-- One iteration of the batch loop: forward pass and loss on the
current weights, then (`train` phase only) `loss.backward();
optimizer.step()`; finally accumulate `loss.item() * inputs.size(0)`
and the correct-prediction count, both computed from the pre-step
weights. -/
def processBatch {W O S B : Type} (env : TrainEnv W O S B) (phase : Phase)
    (a : BatchAcc W O) (b : B) : BatchAcc W O :=
  let loss := env.lossVal phase a.w b
  let corr := env.correctsVal phase a.w b
  let stepped := if phase = Phase.train then env.optStep a.w a.o b else (a.w, a.o)
  { w := stepped.1
    o := stepped.2
    runningLoss := a.runningLoss + loss * (env.batchSize b : ℚ)
    runningCorrects := a.runningCorrects + corr
    n := a.n + 1 }

/-- The whole batch loop of one phase, starting from weights `w` and
optimizer state `o` with zeroed accumulators. -/
def runBatches {W O S B : Type} (env : TrainEnv W O S B) (phase : Phase) (w : W) (o : O) :
    BatchAcc W O :=
  (env.dataloaders phase).foldl (processBatch env phase) ⟨w, o, 0, 0, 0⟩

/-- Average `epochLoss = epochLoss / len(dataloaders[phase].dataset)` taken after the
batch loop. -/
def epochLossOf {W O S B : Type} (env : TrainEnv W O S B) (phase : Phase) (w : W) (o : O) : ℚ :=
  (runBatches env phase w o).runningLoss / (env.datasetSize phase : ℚ)

/-- Average `epochAcc = epochCorrects.double() / len(dataloaders[phase].dataset)`. -/
def epochAccOf {W O S B : Type} (env : TrainEnv W O S B) (phase : Phase) (w : W) (o : O) : ℚ :=
  ((runBatches env phase w o).runningCorrects : ℚ) / (env.datasetSize phase : ℚ)

/-- The `{"train": [], "val": []}` history dictionaries. -/
structure History where
  trainH : List ℚ
  valH : List ℚ
deriving DecidableEq

/-- Dictionary lookup `hist[phase]`. -/
def History.get (h : History) : Phase → List ℚ
  | Phase.train => h.trainH
  | Phase.val => h.valH

/-- Append operation `hist[phase].append(x)`. -/
def History.app (h : History) (phase : Phase) (x : ℚ) : History :=
  match phase with
  | Phase.train => { h with trainH := h.trainH ++ [x] }
  | Phase.val => { h with valH := h.valH ++ [x] }

/-- The mutable state of one `trainModel` invocation.  `schedTrace`
instruments the run with the list of `(epoch, phase)` points at which
`scheduler.step()` was called, and `nBatches` with the total number of
batches consumed; neither influences the computation. -/
structure RunState (W O S : Type) where
  weights : W
  opt : O
  sched : Option S
  bestWeights : W
  bestRecord : Option ℚ
  trainLoss : History
  trainAcc : History
  schedTrace : List (ℕ × Phase)
  nBatches : ℕ
deriving DecidableEq

/-- State at entry of the epoch loop: `bestWeights =
deepcopy(model.state_dict())` of the initial model, `bestRecord = None`,
empty histories. -/
def initState {W O S : Type} (w0 : W) (o0 : O) (s0 : Option S) : RunState W O S :=
  { weights := w0
    opt := o0
    sched := s0
    bestWeights := w0
    bestRecord := none
    trainLoss := ⟨[], []⟩
    trainAcc := ⟨[], []⟩
    schedTrace := []
    nBatches := 0 }

/-- One phase of one epoch of the loop body of `trainModel`: the batch
loop, the scheduler step (`if scheduler and phase == "train"`), the
first-validation baseline for `bestRecord`, the strict-improvement
update of `bestRecord`/`bestWeights`, and the unconditional history
appends.

The `none` branch of the inner match is unreachable when `standard` is
valid, because the preceding baseline assignment has filled
`bestRecord`; in Python an actual `None` there would make
`epochLoss < bestRecord` raise a `TypeError`. -/
def runPhase {W O S B : Type} (env : TrainEnv W O S B) (standard : String) (epoch : ℕ)
    (phase : Phase) (st : RunState W O S) : RunState W O S :=
  let acc := runBatches env phase st.weights st.opt
  let epochLoss := epochLossOf env phase st.weights st.opt
  let epochAcc := epochAccOf env phase st.weights st.opt
  let schedRes : Option S × O × List (ℕ × Phase) :=
    if phase = Phase.train then
      match st.sched with
      | some s =>
        let p := env.schedStep s acc.o
        (some p.1, p.2, st.schedTrace ++ [(epoch, phase)])
      | none => (none, acc.o, st.schedTrace)
    else
      (st.sched, acc.o, st.schedTrace)
  let bestRecord1 : Option ℚ :=
    if phase = Phase.val ∧ st.bestRecord = none then
      if standard = "loss" then some epochLoss
      else if standard = "acc" then some epochAcc
      else st.bestRecord
    else st.bestRecord
  let upd : Option ℚ × W :=
    if phase = Phase.val then
      match bestRecord1 with
      | some r =>
        if standard = "loss" ∧ epochLoss < r then (some epochLoss, acc.w)
        else if standard = "acc" ∧ epochAcc > r then (some epochAcc, acc.w)
        else (some r, st.bestWeights)
      | none => (none, st.bestWeights)
    else (bestRecord1, st.bestWeights)
  { weights := acc.w
    opt := schedRes.2.1
    sched := schedRes.1
    bestWeights := upd.2
    bestRecord := upd.1
    trainLoss := st.trainLoss.app phase epochLoss
    trainAcc := st.trainAcc.app phase epochAcc
    schedTrace := schedRes.2.2
    nBatches := st.nBatches + acc.n }

/-- One epoch, the inner loop over the phase list (train, then val). -/
def runEpoch {W O S B : Type} (env : TrainEnv W O S B) (standard : String) (epoch : ℕ)
    (st : RunState W O S) : RunState W O S :=
  runPhase env standard epoch Phase.val (runPhase env standard epoch Phase.train st)

/-- The epoch loop `for epoch in range(1, numEpochs+1)`. -/
def runEpochs {W O S B : Type} (env : TrainEnv W O S B) (standard : String) (n : ℕ)
    (st : RunState W O S) : RunState W O S :=
  (List.range n).foldl (fun s i => runEpoch env standard (i + 1) s) st

/-- What `trainModel` returns on success:
`model, bestWeights, lastWeights, trainLoss, trainAcc`, plus the final
optimizer/scheduler state and the instrumentation fields. -/
structure TrainResult (W O S : Type) where
  model : W
  bestWeights : W
  lastWeights : W
  trainLoss : History
  trainAcc : History
  opt : O
  sched : Option S
  schedTrace : List (ℕ × Phase)
  nBatches : ℕ
  bestRecord : Option ℚ
deriving DecidableEq

/-- Package the final `RunState`; `lastWeights =
deepcopy(model.state_dict())` after the loop. -/
def mkResult {W O S : Type} (st : RunState W O S) : TrainResult W O S :=
  { model := st.weights
    bestWeights := st.bestWeights
    lastWeights := st.weights
    trainLoss := st.trainLoss
    trainAcc := st.trainAcc
    opt := st.opt
    sched := st.sched
    schedTrace := st.schedTrace
    nBatches := st.nBatches
    bestRecord := st.bestRecord }

/-- Message of `raise NotImplementedError(f"Training with {standard=} is invalid or not implemented.")`,
with the f-string `{standard=}` form flattened (no quotes). -/
def invalidStandardMsg (standard : String) : String :=
  "Training with standard=" ++ standard ++ " is invalid or not implemented."

/-- The `TypeError` Python raises when the final log statement formats
`bestRecord:4f` while `bestRecord` is still `None`. -/
def formatNoneTypeErrorMsg : String :=
  "TypeError: unsupported format string passed to NoneType.__format__"

/-- Embedding of `trainModel`.  The guard on `standard` comes first
(fail-fast, before the loop); then the epoch loop; then the final log
statement, which fails iff `bestRecord` is still `None`. -/
def trainModel {W O S B : Type} (env : TrainEnv W O S B) (w0 : W) (o0 : O)
    (scheduler : Option S) (numEpochs : ℕ) (standard : String) :
    Except String (TrainResult W O S) :=
  if standard ∉ AVAILABLE_STANDARD then
    Except.error (invalidStandardMsg standard)
  else
    let st := runEpochs env standard numEpochs (initState w0 o0 scheduler)
    match st.bestRecord with
    | none => Except.error formatNoneTypeErrorMsg
    | some _ => Except.ok (mkResult st)

/-- Decidable equality of `Except` values, used to evaluate concrete
runs of the embedding. -/
instance {E A : Type} [DecidableEq E] [DecidableEq A] : DecidableEq (Except E A)
  | Except.error a, Except.error b =>
    if h : a = b then isTrue (by rw [h]) else isFalse (fun hh => h (Except.error.inj hh))
  | Except.error _, Except.ok _ => isFalse (fun hh => Except.noConfusion hh)
  | Except.ok _, Except.error _ => isFalse (fun hh => Except.noConfusion hh)
  | Except.ok a, Except.ok b =>
    if h : a = b then isTrue (by rw [h]) else isFalse (fun hh => h (Except.ok.inj hh))

/-- Loop invariant of the best-record bookkeeping for `standard =
"acc"`, relative to the initial best snapshot `bw0`: while `bestRecord`
is `None`, no validation entry exists and the snapshot is the initial
one; once it is `Some r`, `r` is an entry of the validation-accuracy
history dominating all entries, and if `r` still equals the first entry
then the snapshot was never renewed. -/
def accInv {W O S : Type} (bw0 : W) (st : RunState W O S) : Prop :=
  match st.bestRecord with
  | none => st.trainAcc.valH = [] ∧ st.bestWeights = bw0
  | some r => ∃ h0 t, st.trainAcc.valH = h0 :: t ∧ r ∈ h0 :: t ∧
      (∀ x ∈ h0 :: t, x ≤ r) ∧ (r = h0 → st.bestWeights = bw0)

/-- Mirror image of `accInv` for `standard = "loss"`. -/
def lossInv {W O S : Type} (bw0 : W) (st : RunState W O S) : Prop :=
  match st.bestRecord with
  | none => st.trainLoss.valH = [] ∧ st.bestWeights = bw0
  | some r => ∃ h0 t, st.trainLoss.valH = h0 :: t ∧ r ∈ h0 :: t ∧
      (∀ x ∈ h0 :: t, r ≤ x) ∧ (r = h0 → st.bestWeights = bw0)

/-- A small concrete collaborator environment realising the end-to-end
scenario of the specification: weights are a single natural number
starting at 0, every training batch increments them by one, and the
validation accuracy is 70% after the first epoch of training (weights
= 1) and 65% afterwards, i.e. validation accuracies [0.70, 0.65] over
two epochs. -/
def exEnv : TrainEnv ℕ Unit Unit Unit :=
  { dataloaders := fun _ => [()]
    datasetSize := fun p => match p with | Phase.train => 1 | Phase.val => 100
    batchSize := fun _ => 1
    lossVal := fun _ _ _ => 0
    correctsVal := fun ph w _ => match ph with
      | Phase.train => 0
      | Phase.val => if w = 1 then 70 else 65
    optStep := fun w o _ => (w + 1, o)
    schedStep := fun s o => (s, o) }

/-- The result of running `exEnv` for 2 epochs with `standard = "acc"`
and no scheduler. -/
def exRes : TrainResult ℕ Unit Unit :=
  mkResult (runEpochs exEnv "acc" 2 (initState 0 () (none : Option Unit)))

/-- The same run with a (trivial) scheduler present. -/
def exResSched : TrainResult ℕ Unit Unit :=
  mkResult (runEpochs exEnv "acc" 2 (initState 0 () (some ())))

/-- A mid-run state whose `bestRecord` is already set to 13/20, the
validation accuracy that `exEnv` produces at weights 0: a tie. -/
def exSt : RunState ℕ Unit Unit :=
  { weights := 0
    opt := ()
    sched := none
    bestWeights := 42
    bestRecord := some (13/20)
    trainLoss := ⟨[0], [0]⟩
    trainAcc := ⟨[0], [13/20]⟩
    schedTrace := []
    nBatches := 2 }

section Lemmas

variable {W O S B : Type}

/-- During a validation-phase batch the weights and optimizer state are
untouched: back-propagation and `optimizer.step()` are guarded by the
phase-equals-train test. -/
lemma processBatch_val_state (env : TrainEnv W O S B) (a : BatchAcc W O) (b : B) :
    (processBatch env Phase.val a b).w = a.w ∧ (processBatch env Phase.val a b).o = a.o := by
  simp [processBatch]

lemma foldl_processBatch_val_state (env : TrainEnv W O S B) (l : List B) (a : BatchAcc W O) :
    (l.foldl (processBatch env Phase.val) a).w = a.w ∧
      (l.foldl (processBatch env Phase.val) a).o = a.o := by
  induction l generalizing a with
  | nil => exact ⟨rfl, rfl⟩
  | cons b t ih =>
    rw [List.foldl_cons]
    exact ⟨((ih _).1.trans (processBatch_val_state env a b).1),
      ((ih _).2.trans (processBatch_val_state env a b).2)⟩

lemma runBatches_val_w (env : TrainEnv W O S B) (w : W) (o : O) :
    (runBatches env Phase.val w o).w = w :=
  (foldl_processBatch_val_state env _ _).1

lemma runBatches_val_o (env : TrainEnv W O S B) (w : W) (o : O) :
    (runBatches env Phase.val w o).o = o :=
  (foldl_processBatch_val_state env _ _).2

/-- A validation phase leaves the model weights unchanged. -/
lemma runPhase_val_weights (env : TrainEnv W O S B) (standard : String) (epoch : ℕ)
    (st : RunState W O S) :
    (runPhase env standard epoch Phase.val st).weights = st.weights := by
  simp only [runPhase]
  exact runBatches_val_w env st.weights st.opt

/-- A training phase leaves the best-record bookkeeping and the
validation histories unchanged. -/
lemma runPhase_train_proj (env : TrainEnv W O S B) (standard : String) (epoch : ℕ)
    (st : RunState W O S) :
    (runPhase env standard epoch Phase.train st).bestRecord = st.bestRecord ∧
      (runPhase env standard epoch Phase.train st).bestWeights = st.bestWeights ∧
      (runPhase env standard epoch Phase.train st).trainLoss.valH = st.trainLoss.valH ∧
      (runPhase env standard epoch Phase.train st).trainAcc.valH = st.trainAcc.valH := by
  simp [runPhase, History.app]

/-- The histories are appended to unconditionally, one entry per phase
per epoch, at the end (epoch order). -/
lemma runPhase_hist (env : TrainEnv W O S B) (standard : String) (epoch : ℕ) (phase : Phase)
    (st : RunState W O S) :
    (runPhase env standard epoch phase st).trainLoss.get phase =
        st.trainLoss.get phase ++ [epochLossOf env phase st.weights st.opt] ∧
      (runPhase env standard epoch phase st).trainAcc.get phase =
        st.trainAcc.get phase ++ [epochAccOf env phase st.weights st.opt] := by
  cases phase <;> simp [runPhase, History.app, History.get]

lemma runPhase_hist_len (env : TrainEnv W O S B) (standard : String) (epoch : ℕ) (phase : Phase)
    (st : RunState W O S) :
    (runPhase env standard epoch phase st).trainLoss.trainH.length =
        st.trainLoss.trainH.length + (if phase = Phase.train then 1 else 0) ∧
      (runPhase env standard epoch phase st).trainLoss.valH.length =
        st.trainLoss.valH.length + (if phase = Phase.val then 1 else 0) ∧
      (runPhase env standard epoch phase st).trainAcc.trainH.length =
        st.trainAcc.trainH.length + (if phase = Phase.train then 1 else 0) ∧
      (runPhase env standard epoch phase st).trainAcc.valH.length =
        st.trainAcc.valH.length + (if phase = Phase.val then 1 else 0) := by
  cases phase <;> simp [runPhase, History.app]

lemma runEpoch_hist_len (env : TrainEnv W O S B) (standard : String) (epoch : ℕ)
    (st : RunState W O S) :
    (runEpoch env standard epoch st).trainLoss.trainH.length =
        st.trainLoss.trainH.length + 1 ∧
      (runEpoch env standard epoch st).trainLoss.valH.length =
        st.trainLoss.valH.length + 1 ∧
      (runEpoch env standard epoch st).trainAcc.trainH.length =
        st.trainAcc.trainH.length + 1 ∧
      (runEpoch env standard epoch st).trainAcc.valH.length =
        st.trainAcc.valH.length + 1 := by
  unfold runEpoch
  have h1 := runPhase_hist_len env standard epoch Phase.train st
  have h2 := runPhase_hist_len env standard epoch Phase.val
    (runPhase env standard epoch Phase.train st)
  simp at h1 h2
  omega

lemma runEpochs_zero (env : TrainEnv W O S B) (standard : String) (st : RunState W O S) :
    runEpochs env standard 0 st = st := rfl

lemma runEpochs_succ (env : TrainEnv W O S B) (standard : String) (n : ℕ)
    (st : RunState W O S) :
    runEpochs env standard (n + 1) st =
      runEpoch env standard (n + 1) (runEpochs env standard n st) := by
  simp [runEpochs, List.range_succ]

lemma runEpochs_hist_len (env : TrainEnv W O S B) (standard : String) (n : ℕ)
    (st : RunState W O S) :
    (runEpochs env standard n st).trainLoss.trainH.length =
        st.trainLoss.trainH.length + n ∧
      (runEpochs env standard n st).trainLoss.valH.length =
        st.trainLoss.valH.length + n ∧
      (runEpochs env standard n st).trainAcc.trainH.length =
        st.trainAcc.trainH.length + n ∧
      (runEpochs env standard n st).trainAcc.valH.length =
        st.trainAcc.valH.length + n := by
  induction n with
  | zero => simp [runEpochs_zero]
  | succ n ih =>
    rw [runEpochs_succ]
    have h := runEpoch_hist_len env standard (n + 1) (runEpochs env standard n st)
    omega

/-- During a validation phase `scheduler.step()` is never called. -/
lemma runPhase_val_sched (env : TrainEnv W O S B) (standard : String) (epoch : ℕ)
    (st : RunState W O S) :
    (runPhase env standard epoch Phase.val st).sched = st.sched ∧
      (runPhase env standard epoch Phase.val st).schedTrace = st.schedTrace := by
  simp [runPhase]

/-- With no scheduler, a training phase performs no scheduler step. -/
lemma runPhase_train_sched_none (env : TrainEnv W O S B) (standard : String) (epoch : ℕ)
    (st : RunState W O S) (h : st.sched = none) :
    (runPhase env standard epoch Phase.train st).sched = none ∧
      (runPhase env standard epoch Phase.train st).schedTrace = st.schedTrace := by
  simp [runPhase, h]

/-- With a scheduler present, a training phase performs exactly one
scheduler step, recorded at `(epoch, TRAIN)`. -/
lemma runPhase_train_sched_some (env : TrainEnv W O S B) (standard : String) (epoch : ℕ)
    (st : RunState W O S) (s : S) (h : st.sched = some s) :
    (runPhase env standard epoch Phase.train st).sched =
        some (env.schedStep s (runBatches env Phase.train st.weights st.opt).o).1 ∧
      (runPhase env standard epoch Phase.train st).schedTrace =
        st.schedTrace ++ [(epoch, Phase.train)] := by
  simp [runPhase, h]

lemma runEpoch_sched_none (env : TrainEnv W O S B) (standard : String) (epoch : ℕ)
    (st : RunState W O S) (h : st.sched = none) :
    (runEpoch env standard epoch st).sched = none ∧
      (runEpoch env standard epoch st).schedTrace = st.schedTrace := by
  unfold runEpoch
  have h1 := runPhase_train_sched_none env standard epoch st h
  have h2 := runPhase_val_sched env standard epoch
    (runPhase env standard epoch Phase.train st)
  exact ⟨h2.1.trans h1.1, h2.2.trans h1.2⟩

lemma runEpoch_sched_some (env : TrainEnv W O S B) (standard : String) (epoch : ℕ)
    (st : RunState W O S) (s : S) (h : st.sched = some s) :
    (runEpoch env standard epoch st).sched.isSome ∧
      (runEpoch env standard epoch st).schedTrace =
        st.schedTrace ++ [(epoch, Phase.train)] := by
  unfold runEpoch
  have h1 := runPhase_train_sched_some env standard epoch st s h
  have h2 := runPhase_val_sched env standard epoch
    (runPhase env standard epoch Phase.train st)
  refine ⟨?_, h2.2.trans h1.2⟩
  rw [h2.1, h1.1]
  rfl

/-- Full scheduler-step trace of the epoch loop: one step per epoch
during the training phase when a scheduler is present. -/
lemma runEpochs_schedTrace_some (env : TrainEnv W O S B) (standard : String) (n : ℕ)
    (st : RunState W O S) (h : st.sched.isSome) :
    (runEpochs env standard n st).sched.isSome ∧
      (runEpochs env standard n st).schedTrace =
        st.schedTrace ++ (List.range n).map (fun i => (i + 1, Phase.train)) := by
  induction n with
  | zero => exact ⟨h, by simp [runEpochs_zero]⟩
  | succ n ih =>
    rw [runEpochs_succ]
    obtain ⟨hs, ht⟩ := ih
    obtain ⟨s, hsome⟩ := Option.isSome_iff_exists.mp hs
    have h2 := runEpoch_sched_some env standard (n + 1) (runEpochs env standard n st) s hsome
    refine ⟨h2.1, ?_⟩
    rw [h2.2, ht, List.range_succ]
    simp

lemma runEpochs_schedTrace_none (env : TrainEnv W O S B) (standard : String) (n : ℕ)
    (st : RunState W O S) (h : st.sched = none) :
    (runEpochs env standard n st).sched = none ∧
      (runEpochs env standard n st).schedTrace = st.schedTrace := by
  induction n with
  | zero => exact ⟨h, rfl⟩
  | succ n ih =>
    rw [runEpochs_succ]
    have h2 := runEpoch_sched_none env standard (n + 1) (runEpochs env standard n st) ih.1
    exact ⟨h2.1, h2.2.trans ih.2⟩

/-- First validation phase with `standard = "acc"`: the metric is
recorded as baseline best, but the weight snapshot is NOT renewed. -/
lemma runPhase_val_acc_none (env : TrainEnv W O S B) (epoch : ℕ) (st : RunState W O S)
    (h : st.bestRecord = none) :
    (runPhase env "acc" epoch Phase.val st).bestRecord =
        some (epochAccOf env Phase.val st.weights st.opt) ∧
      (runPhase env "acc" epoch Phase.val st).bestWeights = st.bestWeights := by
  simp [runPhase, h]

/-- Later validation phases with `standard = "acc"`: strict improvement
updates record and snapshot, otherwise both stay. -/
lemma runPhase_val_acc_some (env : TrainEnv W O S B) (epoch : ℕ) (st : RunState W O S)
    (r : ℚ) (h : st.bestRecord = some r) :
    (epochAccOf env Phase.val st.weights st.opt > r →
        (runPhase env "acc" epoch Phase.val st).bestRecord =
            some (epochAccOf env Phase.val st.weights st.opt) ∧
          (runPhase env "acc" epoch Phase.val st).bestWeights = st.weights) ∧
      (¬ epochAccOf env Phase.val st.weights st.opt > r →
        (runPhase env "acc" epoch Phase.val st).bestRecord = some r ∧
          (runPhase env "acc" epoch Phase.val st).bestWeights = st.bestWeights) := by
  constructor <;> intro hm
  · simp [runPhase, h, hm, runBatches_val_w]
  · simp [runPhase, h, hm]

/-- First validation phase with `standard = "loss"`. -/
lemma runPhase_val_loss_none (env : TrainEnv W O S B) (epoch : ℕ) (st : RunState W O S)
    (h : st.bestRecord = none) :
    (runPhase env "loss" epoch Phase.val st).bestRecord =
        some (epochLossOf env Phase.val st.weights st.opt) ∧
      (runPhase env "loss" epoch Phase.val st).bestWeights = st.bestWeights := by
  simp [runPhase, h]

/-- Later validation phases with `standard = "loss"`. -/
lemma runPhase_val_loss_some (env : TrainEnv W O S B) (epoch : ℕ) (st : RunState W O S)
    (r : ℚ) (h : st.bestRecord = some r) :
    (epochLossOf env Phase.val st.weights st.opt < r →
        (runPhase env "loss" epoch Phase.val st).bestRecord =
            some (epochLossOf env Phase.val st.weights st.opt) ∧
          (runPhase env "loss" epoch Phase.val st).bestWeights = st.weights) ∧
      (¬ epochLossOf env Phase.val st.weights st.opt < r →
        (runPhase env "loss" epoch Phase.val st).bestRecord = some r ∧
          (runPhase env "loss" epoch Phase.val st).bestWeights = st.bestWeights) := by
  constructor <;> intro hm
  · simp [runPhase, h, hm, runBatches_val_w]
  · simp [runPhase, h, hm]

/-- Validation phase appends the epoch accuracy to `trainAcc["val"]`. -/
lemma runPhase_val_valAcc (env : TrainEnv W O S B) (standard : String) (epoch : ℕ)
    (st : RunState W O S) :
    (runPhase env standard epoch Phase.val st).trainAcc.valH =
      st.trainAcc.valH ++ [epochAccOf env Phase.val st.weights st.opt] := by
  simp [runPhase, History.app]

/-- Validation phase appends the epoch loss to `trainLoss["val"]`. -/
lemma runPhase_val_valLoss (env : TrainEnv W O S B) (standard : String) (epoch : ℕ)
    (st : RunState W O S) :
    (runPhase env standard epoch Phase.val st).trainLoss.valH =
      st.trainLoss.valH ++ [epochLossOf env Phase.val st.weights st.opt] := by
  simp [runPhase, History.app]

/-- Inversion of a successful `trainModel` run. -/
lemma trainModel_ok (env : TrainEnv W O S B) (w0 : W) (o0 : O) (s0 : Option S)
    (n : ℕ) (standard : String) (res : TrainResult W O S)
    (h : trainModel env w0 o0 s0 n standard = Except.ok res) :
    standard ∈ AVAILABLE_STANDARD ∧
      res = mkResult (runEpochs env standard n (initState w0 o0 s0)) ∧
      (runEpochs env standard n (initState w0 o0 s0)).bestRecord.isSome := by
  by_cases hs : standard ∈ AVAILABLE_STANDARD
  · refine ⟨hs, ?_⟩
    simp only [trainModel] at h
    rw [if_neg (not_not_intro hs)] at h
    cases hbr : (runEpochs env standard n (initState w0 o0 s0)).bestRecord with
    | none => rw [hbr] at h; cases h
    | some r =>
      rw [hbr] at h
      exact ⟨(Except.ok.inj h).symm, rfl⟩
  · simp only [trainModel] at h
    rw [if_pos hs] at h
    cases h

lemma accInv_none_elim {bw0 : W} {st : RunState W O S} (h : accInv bw0 st)
    (hbr : st.bestRecord = none) : st.trainAcc.valH = [] ∧ st.bestWeights = bw0 := by
  unfold accInv at h
  rw [hbr] at h
  exact h

lemma accInv_some_elim {bw0 : W} {st : RunState W O S} {r : ℚ} (h : accInv bw0 st)
    (hbr : st.bestRecord = some r) :
    ∃ h0 t, st.trainAcc.valH = h0 :: t ∧ r ∈ h0 :: t ∧
      (∀ x ∈ h0 :: t, x ≤ r) ∧ (r = h0 → st.bestWeights = bw0) := by
  unfold accInv at h
  rw [hbr] at h
  exact h

lemma accInv_some_intro {bw0 : W} {st : RunState W O S} {r : ℚ}
    (hbr : st.bestRecord = some r) (h0 : ℚ) (t : List ℚ)
    (hv : st.trainAcc.valH = h0 :: t) (hr : r ∈ h0 :: t) (hle : ∀ x ∈ h0 :: t, x ≤ r)
    (hc : r = h0 → st.bestWeights = bw0) : accInv bw0 st := by
  unfold accInv
  rw [hbr]
  exact ⟨h0, t, hv, hr, hle, hc⟩

lemma accInv_congr {bw0 : W} {st st' : RunState W O S}
    (h1 : st'.bestRecord = st.bestRecord) (h2 : st'.bestWeights = st.bestWeights)
    (h3 : st'.trainAcc.valH = st.trainAcc.valH) (h : accInv bw0 st) : accInv bw0 st' := by
  unfold accInv at h ⊢
  rw [h1, h2, h3]
  exact h

lemma accInv_runPhase_val (env : TrainEnv W O S B) (epoch : ℕ) (bw0 : W)
    (st : RunState W O S) (h : accInv bw0 st) :
    accInv bw0 (runPhase env "acc" epoch Phase.val st) := by
  have hhist := runPhase_val_valAcc env "acc" epoch st
  cases hbr : st.bestRecord with
  | none =>
    obtain ⟨hnil, hbw⟩ := accInv_none_elim h hbr
    have hb := runPhase_val_acc_none env epoch st hbr
    refine accInv_some_intro hb.1 (epochAccOf env Phase.val st.weights st.opt) [] ?_
      (by simp) (by simp) (fun _ => hb.2.trans hbw)
    rw [hhist, hnil]
    rfl
  | some r =>
    obtain ⟨h0, t, hval, hrmem, hle, hcond⟩ := accInv_some_elim h hbr
    have hvnew : (runPhase env "acc" epoch Phase.val st).trainAcc.valH =
        h0 :: (t ++ [epochAccOf env Phase.val st.weights st.opt]) := by
      rw [hhist, hval]
      rfl
    by_cases himp : epochAccOf env Phase.val st.weights st.opt > r
    · have hb := (runPhase_val_acc_some env epoch st r hbr).1 himp
      refine accInv_some_intro hb.1 h0 (t ++ [epochAccOf env Phase.val st.weights st.opt])
        hvnew (by simp) ?_ ?_
      · intro x hx
        rw [show h0 :: (t ++ [epochAccOf env Phase.val st.weights st.opt]) =
            (h0 :: t) ++ [epochAccOf env Phase.val st.weights st.opt] from rfl] at hx
        rcases List.mem_append.mp hx with hx1 | hx1
        · exact le_of_lt (lt_of_le_of_lt (hle x hx1) himp)
        · rw [List.mem_singleton.mp hx1]
      · intro heq
        exfalso
        have : h0 ≤ r := hle h0 (List.mem_cons_self h0 t)
        rw [← heq] at this
        exact absurd himp (not_lt_of_le this)
    · have hb := (runPhase_val_acc_some env epoch st r hbr).2 himp
      have hmr : epochAccOf env Phase.val st.weights st.opt ≤ r := le_of_not_lt himp
      refine accInv_some_intro hb.1 h0 (t ++ [epochAccOf env Phase.val st.weights st.opt])
        hvnew ?_ ?_ ?_
      · rcases List.mem_cons.mp hrmem with h1 | h1
        · exact List.mem_cons.mpr (Or.inl h1)
        · exact List.mem_cons.mpr (Or.inr (List.mem_append.mpr (Or.inl h1)))
      · intro x hx
        rw [show h0 :: (t ++ [epochAccOf env Phase.val st.weights st.opt]) =
            (h0 :: t) ++ [epochAccOf env Phase.val st.weights st.opt] from rfl] at hx
        rcases List.mem_append.mp hx with hx1 | hx1
        · exact hle x hx1
        · rw [List.mem_singleton.mp hx1]; exact hmr
      · intro heq
        exact hb.2.trans (hcond heq)

lemma accInv_runEpoch (env : TrainEnv W O S B) (epoch : ℕ) (bw0 : W)
    (st : RunState W O S) (h : accInv bw0 st) :
    accInv bw0 (runEpoch env "acc" epoch st) := by
  unfold runEpoch
  apply accInv_runPhase_val
  have hp := runPhase_train_proj env "acc" epoch st
  exact accInv_congr hp.1 hp.2.1 hp.2.2.2 h

lemma accInv_runEpochs (env : TrainEnv W O S B) (n : ℕ) (bw0 : W)
    (st : RunState W O S) (h : accInv bw0 st) :
    accInv bw0 (runEpochs env "acc" n st) := by
  induction n with
  | zero => exact h
  | succ n ih =>
    rw [runEpochs_succ]
    exact accInv_runEpoch env (n + 1) bw0 _ ih

lemma lossInv_none_elim {bw0 : W} {st : RunState W O S} (h : lossInv bw0 st)
    (hbr : st.bestRecord = none) : st.trainLoss.valH = [] ∧ st.bestWeights = bw0 := by
  unfold lossInv at h
  rw [hbr] at h
  exact h

lemma lossInv_some_elim {bw0 : W} {st : RunState W O S} {r : ℚ} (h : lossInv bw0 st)
    (hbr : st.bestRecord = some r) :
    ∃ h0 t, st.trainLoss.valH = h0 :: t ∧ r ∈ h0 :: t ∧
      (∀ x ∈ h0 :: t, r ≤ x) ∧ (r = h0 → st.bestWeights = bw0) := by
  unfold lossInv at h
  rw [hbr] at h
  exact h

lemma lossInv_some_intro {bw0 : W} {st : RunState W O S} {r : ℚ}
    (hbr : st.bestRecord = some r) (h0 : ℚ) (t : List ℚ)
    (hv : st.trainLoss.valH = h0 :: t) (hr : r ∈ h0 :: t) (hle : ∀ x ∈ h0 :: t, r ≤ x)
    (hc : r = h0 → st.bestWeights = bw0) : lossInv bw0 st := by
  unfold lossInv
  rw [hbr]
  exact ⟨h0, t, hv, hr, hle, hc⟩

lemma lossInv_congr {bw0 : W} {st st' : RunState W O S}
    (h1 : st'.bestRecord = st.bestRecord) (h2 : st'.bestWeights = st.bestWeights)
    (h3 : st'.trainLoss.valH = st.trainLoss.valH) (h : lossInv bw0 st) : lossInv bw0 st' := by
  unfold lossInv at h ⊢
  rw [h1, h2, h3]
  exact h

lemma lossInv_runPhase_val (env : TrainEnv W O S B) (epoch : ℕ) (bw0 : W)
    (st : RunState W O S) (h : lossInv bw0 st) :
    lossInv bw0 (runPhase env "loss" epoch Phase.val st) := by
  have hhist := runPhase_val_valLoss env "loss" epoch st
  cases hbr : st.bestRecord with
  | none =>
    obtain ⟨hnil, hbw⟩ := lossInv_none_elim h hbr
    have hb := runPhase_val_loss_none env epoch st hbr
    refine lossInv_some_intro hb.1 (epochLossOf env Phase.val st.weights st.opt) [] ?_
      (by simp) (by simp) (fun _ => hb.2.trans hbw)
    rw [hhist, hnil]
    rfl
  | some r =>
    obtain ⟨h0, t, hval, hrmem, hle, hcond⟩ := lossInv_some_elim h hbr
    have hvnew : (runPhase env "loss" epoch Phase.val st).trainLoss.valH =
        h0 :: (t ++ [epochLossOf env Phase.val st.weights st.opt]) := by
      rw [hhist, hval]
      rfl
    by_cases himp : epochLossOf env Phase.val st.weights st.opt < r
    · have hb := (runPhase_val_loss_some env epoch st r hbr).1 himp
      refine lossInv_some_intro hb.1 h0 (t ++ [epochLossOf env Phase.val st.weights st.opt])
        hvnew (by simp) ?_ ?_
      · intro x hx
        rw [show h0 :: (t ++ [epochLossOf env Phase.val st.weights st.opt]) =
            (h0 :: t) ++ [epochLossOf env Phase.val st.weights st.opt] from rfl] at hx
        rcases List.mem_append.mp hx with hx1 | hx1
        · exact le_of_lt (lt_of_lt_of_le himp (hle x hx1))
        · rw [List.mem_singleton.mp hx1]
      · intro heq
        exfalso
        have : r ≤ h0 := hle h0 (List.mem_cons_self h0 t)
        rw [← heq] at this
        exact absurd himp (not_lt_of_le this)
    · have hb := (runPhase_val_loss_some env epoch st r hbr).2 himp
      have hmr : r ≤ epochLossOf env Phase.val st.weights st.opt := le_of_not_lt himp
      refine lossInv_some_intro hb.1 h0 (t ++ [epochLossOf env Phase.val st.weights st.opt])
        hvnew ?_ ?_ ?_
      · rcases List.mem_cons.mp hrmem with h1 | h1
        · exact List.mem_cons.mpr (Or.inl h1)
        · exact List.mem_cons.mpr (Or.inr (List.mem_append.mpr (Or.inl h1)))
      · intro x hx
        rw [show h0 :: (t ++ [epochLossOf env Phase.val st.weights st.opt]) =
            (h0 :: t) ++ [epochLossOf env Phase.val st.weights st.opt] from rfl] at hx
        rcases List.mem_append.mp hx with hx1 | hx1
        · exact hle x hx1
        · rw [List.mem_singleton.mp hx1]; exact hmr
      · intro heq
        exact hb.2.trans (hcond heq)

lemma lossInv_runEpoch (env : TrainEnv W O S B) (epoch : ℕ) (bw0 : W)
    (st : RunState W O S) (h : lossInv bw0 st) :
    lossInv bw0 (runEpoch env "loss" epoch st) := by
  unfold runEpoch
  apply lossInv_runPhase_val
  have hp := runPhase_train_proj env "loss" epoch st
  exact lossInv_congr hp.1 hp.2.1 hp.2.2.1 h

lemma lossInv_runEpochs (env : TrainEnv W O S B) (n : ℕ) (bw0 : W)
    (st : RunState W O S) (h : lossInv bw0 st) :
    lossInv bw0 (runEpochs env "loss" n st) := by
  induction n with
  | zero => exact h
  | succ n ih =>
    rw [runEpochs_succ]
    exact lossInv_runEpoch env (n + 1) bw0 _ ih

end Lemmas

section Claims

variable {W O S B : Type}

/-- C3: for every input where `standard` is not one of {loss, acc},
`trainModel` raises the invalid-configuration error
(`NotImplementedError`) before any epoch runs: the error branch precedes
the epoch loop, so no batch is processed, no model state is changed and
no history entry is produced. -/
theorem claim3_invalid_standard_rejected (env : TrainEnv W O S B) (w0 : W) (o0 : O)
    (s0 : Option S) (numEpochs : ℕ) (standard : String)
    (h : standard ∉ AVAILABLE_STANDARD) :
    trainModel env w0 o0 s0 numEpochs standard = Except.error (invalidStandardMsg standard) := by
  simp only [trainModel]
  rw [if_pos h]

theorem claim3_witness :
    trainModel exEnv 0 () (none : Option Unit) 3 "f1" =
      Except.error (invalidStandardMsg "f1") :=
  claim3_invalid_standard_rejected exEnv 0 () none 3 "f1" (by decide)

/-- C7: `getOptimizer` rejects (before constructing anything) every name
whose lower-cased form is outside {sgd, rmsprop, adam, adamw}, and for
supported names constructs the corresponding optimizer from exactly the
documented parameter subset; `momentum` and `alpha` do not occur in the
adam/adamw handles. -/
theorem claim7_getOptimizer_dispatch {P : Type} (params : P) (name : String)
    (lr momentum weight_decay alpha : ℚ) (betas : ℚ × ℚ) :
    (pyLower name ∉ AVAILABLE_OPTIMIZER →
      getOptimizer params name lr momentum weight_decay alpha betas =
        Except.error "The optimizer is not implemented in this TAO-like pytorch classifier.") ∧
      (pyLower name = "sgd" →
        getOptimizer params name lr momentum weight_decay alpha betas =
          Except.ok (some (OptimizerHandle.sgd params lr momentum weight_decay))) ∧
      (pyLower name = "rmsprop" →
        getOptimizer params name lr momentum weight_decay alpha betas =
          Except.ok (some (OptimizerHandle.rmsprop params lr momentum weight_decay alpha))) ∧
      (pyLower name = "adam" →
        getOptimizer params name lr momentum weight_decay alpha betas =
          Except.ok (some (OptimizerHandle.adam params lr betas weight_decay))) ∧
      (pyLower name = "adamw" →
        getOptimizer params name lr momentum weight_decay alpha betas =
          Except.ok (some (OptimizerHandle.adamw params lr betas weight_decay))) := by
  refine ⟨fun h => ?_, fun h => ?_, fun h => ?_, fun h => ?_, fun h => ?_⟩
  · simp only [getOptimizer]
    rw [if_pos h]
  all_goals simp [getOptimizer, h, AVAILABLE_OPTIMIZER]

theorem claim7_witness :
    getOptimizer () "SGD" 1 2 3 4 (5, 6) =
        Except.ok (some (OptimizerHandle.sgd () 1 2 3)) ∧
      getOptimizer () "AdamW" 1 2 3 4 (5, 6) =
        Except.ok (some (OptimizerHandle.adamw () 1 (5, 6) 3)) ∧
      getOptimizer () "lamb" 1 2 3 4 (5, 6) =
        Except.error "The optimizer is not implemented in this TAO-like pytorch classifier." :=
  ⟨(claim7_getOptimizer_dispatch () "SGD" 1 2 3 4 (5, 6)).2.1 (by decide),
   (claim7_getOptimizer_dispatch () "AdamW" 1 2 3 4 (5, 6)).2.2.2.2 (by decide),
   (claim7_getOptimizer_dispatch () "lamb" 1 2 3 4 (5, 6)).1 (by decide)⟩

/-- C8: `getScheduler` rejects every name whose lower-cased form is
outside {step, cosine}; "step" constructs a step-decay schedule from
`stepSize` and `gamma`, "cosine" a cosine-annealing schedule with
horizon `numEpochs` and floor `lrMin`. -/
theorem claim8_getScheduler_dispatch (name : String) (optimizer : O) (numEpochs : ℕ)
    (stepSize : ℕ) (gamma : ℚ) (lrMin : ℚ) :
    (pyLower name ∉ AVAILABLE_SCHEDULER →
      getScheduler name optimizer numEpochs stepSize gamma lrMin =
        Except.error "The scheduler is not implemented in this TAO-like pytorch classifier.") ∧
      (pyLower name = "step" →
        getScheduler name optimizer numEpochs stepSize gamma lrMin =
          Except.ok (some (SchedulerHandle.stepLR optimizer stepSize gamma))) ∧
      (pyLower name = "cosine" →
        getScheduler name optimizer numEpochs stepSize gamma lrMin =
          Except.ok (some (SchedulerHandle.cosineAnnealingLR optimizer numEpochs lrMin))) := by
  refine ⟨fun h => ?_, fun h => ?_, fun h => ?_⟩
  · simp only [getScheduler]
    rw [if_pos h]
  all_goals simp [getScheduler, h, AVAILABLE_SCHEDULER]

theorem claim8_witness :
    getScheduler "Step" () 30 10 2 0 =
        Except.ok (some (SchedulerHandle.stepLR () 10 2)) ∧
      getScheduler "COSINE" () 30 10 2 0 =
        Except.ok (some (SchedulerHandle.cosineAnnealingLR () 30 0)) ∧
      getScheduler "plateau" () 30 10 2 0 =
        Except.error "The scheduler is not implemented in this TAO-like pytorch classifier." :=
  ⟨(claim8_getScheduler_dispatch "Step" () 30 10 2 0).2.1 (by decide),
   (claim8_getScheduler_dispatch "COSINE" () 30 10 2 0).2.2 (by decide),
   (claim8_getScheduler_dispatch "plateau" () 30 10 2 0).1 (by decide)⟩

/-- C9: `getClassMapping` raises the missing-path `ValueError` iff
`save` is true and `savepath` is absent, performing no write in that
case; every non-raising call returns the class-to-index table of the dataset
mapping. -/
theorem claim9_getClassMapping_missing_path (dataset : ImageFolderDataset)
    (savepath : Option String) (save : Bool) :
    ((getClassMapping dataset savepath save).1 =
        Except.error "The savepath cannot be None if save=True" ↔
      save = true ∧ savepath = none) ∧
      (save = true ∧ savepath = none → (getClassMapping dataset savepath save).2 = []) ∧
      (∀ m, (getClassMapping dataset savepath save).1 = Except.ok m →
        m = dataset.class_to_idx) := by
  cases save <;> rcases savepath with _ | p <;> simp [getClassMapping]

theorem claim9_witness :
    (getClassMapping ⟨[("cat", 0), ("dog", 1)]⟩ none true).1 =
        Except.error "The savepath cannot be None if save=True" ∧
      (getClassMapping ⟨[("cat", 0), ("dog", 1)]⟩ none true).2 = [] :=
  ⟨(claim9_getClassMapping_missing_path ⟨[("cat", 0), ("dog", 1)]⟩ none true).1.mpr
      ⟨rfl, rfl⟩,
   (claim9_getClassMapping_missing_path ⟨[("cat", 0), ("dog", 1)]⟩ none true).2.1
      ⟨rfl, rfl⟩⟩

/-- C10: with a supported `standard` and `numEpochs = 0` the up-front
validation does not reject the call (only `standard` is checked, never
`numEpochs`); the epoch loop body runs zero times, so the loop leaves
the initial state untouched — no batch, no history entry, no best
record.  The run then fails only at the final logging statement, which
formats the still-`None` best record. -/
theorem claim10_zero_epochs (env : TrainEnv W O S B) (w0 : W) (o0 : O) (s0 : Option S)
    (standard : String) (h : standard ∈ AVAILABLE_STANDARD) :
    trainModel env w0 o0 s0 0 standard = Except.error formatNoneTypeErrorMsg ∧
      runEpochs env standard 0 (initState w0 o0 s0) = initState w0 o0 s0 ∧
      (initState w0 o0 s0 : RunState W O S).nBatches = 0 ∧
      (initState w0 o0 s0 : RunState W O S).trainLoss = ⟨[], []⟩ ∧
      (initState w0 o0 s0 : RunState W O S).trainAcc = ⟨[], []⟩ ∧
      (initState w0 o0 s0 : RunState W O S).bestRecord = none := by
  refine ⟨?_, rfl, rfl, rfl, rfl, rfl⟩
  simp only [trainModel]
  rw [if_neg (not_not_intro h)]
  rfl

theorem claim10_witness :
    trainModel exEnv 0 () (none : Option Unit) 0 "acc" =
        Except.error formatNoneTypeErrorMsg ∧
      runEpochs exEnv "acc" 0 (initState 0 () (none : Option Unit)) =
        initState 0 () (none : Option Unit) :=
  ⟨(claim10_zero_epochs exEnv 0 () none "acc" (by decide)).1,
   (claim10_zero_epochs exEnv 0 () none "acc" (by decide)).2.1⟩

/-- C2: on every validation phase after the first (best record already
present), the best metric record and the best-weight snapshot are
updated iff the new validation metric strictly improves in the
direction of the standard — strictly higher epoch accuracy for "acc",
strictly lower epoch loss for "loss"; a tie updates neither. -/
theorem claim2_strict_improvement_update (env : TrainEnv W O S B) (epoch : ℕ)
    (st : RunState W O S) (r : ℚ) (h : st.bestRecord = some r) :
    ((epochAccOf env Phase.val st.weights st.opt > r →
        (runPhase env "acc" epoch Phase.val st).bestRecord =
            some (epochAccOf env Phase.val st.weights st.opt) ∧
          (runPhase env "acc" epoch Phase.val st).bestWeights = st.weights) ∧
      (¬ epochAccOf env Phase.val st.weights st.opt > r →
        (runPhase env "acc" epoch Phase.val st).bestRecord = some r ∧
          (runPhase env "acc" epoch Phase.val st).bestWeights = st.bestWeights)) ∧
      ((epochLossOf env Phase.val st.weights st.opt < r →
        (runPhase env "loss" epoch Phase.val st).bestRecord =
            some (epochLossOf env Phase.val st.weights st.opt) ∧
          (runPhase env "loss" epoch Phase.val st).bestWeights = st.weights) ∧
      (¬ epochLossOf env Phase.val st.weights st.opt < r →
        (runPhase env "loss" epoch Phase.val st).bestRecord = some r ∧
          (runPhase env "loss" epoch Phase.val st).bestWeights = st.bestWeights)) :=
  ⟨runPhase_val_acc_some env epoch st r h, runPhase_val_loss_some env epoch st r h⟩

theorem claim2_witness :
    (runPhase exEnv "acc" 2 Phase.val exSt).bestRecord = some (13/20) ∧
      (runPhase exEnv "acc" 2 Phase.val exSt).bestWeights = 42 :=
  (claim2_strict_improvement_update exEnv 2 exSt (13/20) rfl).1.2
    (by with_unfolding_all decide)

/-- C4: in every successful run the scheduler-step trace is one step per
epoch, always during the TRAIN phase — `numEpochs` steps in total — when
a scheduler is present, and empty when it is absent. -/
theorem claim4_scheduler_steps (env : TrainEnv W O S B) (w0 : W) (o0 : O) (s0 : Option S)
    (numEpochs : ℕ) (standard : String) (res : TrainResult W O S)
    (hrun : trainModel env w0 o0 s0 numEpochs standard = Except.ok res) :
    (s0.isSome →
      res.schedTrace = (List.range numEpochs).map (fun i => (i + 1, Phase.train)) ∧
        res.schedTrace.length = numEpochs) ∧
      (s0 = none → res.schedTrace = []) := by
  obtain ⟨hmem, hres, hsome⟩ := trainModel_ok env w0 o0 s0 numEpochs standard res hrun
  subst hres
  constructor
  · intro hs
    have h := runEpochs_schedTrace_some env standard numEpochs (initState w0 o0 s0) hs
    have ht : (mkResult (runEpochs env standard numEpochs (initState w0 o0 s0))).schedTrace =
        (List.range numEpochs).map (fun i => (i + 1, Phase.train)) := by
      show (runEpochs env standard numEpochs (initState w0 o0 s0)).schedTrace = _
      rw [h.2]
      rfl
    exact ⟨ht, by rw [ht]; simp⟩
  · intro hs
    have h := runEpochs_schedTrace_none env standard numEpochs (initState w0 o0 s0) hs
    show (runEpochs env standard numEpochs (initState w0 o0 s0)).schedTrace = []
    rw [h.2]
    rfl

theorem claim4_witness :
    exResSched.schedTrace = [(1, Phase.train), (2, Phase.train)] ∧
      exResSched.schedTrace.length = 2 := by
  have h := (claim4_scheduler_steps exEnv 0 () (some ()) 2 "acc" exResSched
    (by with_unfolding_all decide)).1 rfl
  exact ⟨h.1.trans (by decide), h.2⟩

/-- C5: every successful run returns four history sequences with exactly
`numEpochs` entries each, built by appending exactly one entry per phase
per epoch at the end (epoch order), unconditionally. -/
theorem claim5_history_lengths (env : TrainEnv W O S B) (w0 : W) (o0 : O) (s0 : Option S)
    (numEpochs : ℕ) (standard : String) (res : TrainResult W O S)
    (hrun : trainModel env w0 o0 s0 numEpochs standard = Except.ok res) :
    res.trainLoss.trainH.length = numEpochs ∧
      res.trainLoss.valH.length = numEpochs ∧
      res.trainAcc.trainH.length = numEpochs ∧
      res.trainAcc.valH.length = numEpochs ∧
      (∀ (epoch : ℕ) (phase : Phase) (st : RunState W O S),
        (runPhase env standard epoch phase st).trainLoss.get phase =
            st.trainLoss.get phase ++ [epochLossOf env phase st.weights st.opt] ∧
          (runPhase env standard epoch phase st).trainAcc.get phase =
            st.trainAcc.get phase ++ [epochAccOf env phase st.weights st.opt]) := by
  obtain ⟨hmem, hres, hsome⟩ := trainModel_ok env w0 o0 s0 numEpochs standard res hrun
  subst hres
  have h := runEpochs_hist_len env standard numEpochs (initState w0 o0 s0)
  refine ⟨?_, ?_, ?_, ?_, fun epoch phase st => runPhase_hist env standard epoch phase st⟩
  · simpa [initState, mkResult] using h.1
  · simpa [initState, mkResult] using h.2.1
  · simpa [initState, mkResult] using h.2.2.1
  · simpa [initState, mkResult] using h.2.2.2

theorem claim5_witness :
    exRes.trainLoss.trainH.length = 2 ∧ exRes.trainLoss.valH.length = 2 ∧
      exRes.trainAcc.trainH.length = 2 ∧ exRes.trainAcc.valH.length = 2 := by
  have h := claim5_history_lengths exEnv 0 () (none : Option Unit) 2 "acc" exRes
    (by with_unfolding_all decide)
  exact ⟨h.1, h.2.1, h.2.2.1, h.2.2.2.1⟩

/-- C6: validation phases never change the model weights (the optimizer
step runs only in the TRAIN phase), and the returned `lastWeights` is
exactly the weights produced by the training phase of the final epoch. -/
theorem claim6_val_frame_lastWeights (env : TrainEnv W O S B) (w0 : W) (o0 : O)
    (s0 : Option S) (n : ℕ) (standard : String) (res : TrainResult W O S)
    (hrun : trainModel env w0 o0 s0 (n + 1) standard = Except.ok res) :
    (∀ (epoch : ℕ) (st : RunState W O S),
        (runPhase env standard epoch Phase.val st).weights = st.weights) ∧
      res.lastWeights =
        (runPhase env standard (n + 1) Phase.train
          (runEpochs env standard n (initState w0 o0 s0))).weights := by
  obtain ⟨hmem, hres, hsome⟩ := trainModel_ok env w0 o0 s0 (n + 1) standard res hrun
  subst hres
  refine ⟨fun epoch st => runPhase_val_weights env standard epoch st, ?_⟩
  show (runEpochs env standard (n + 1) (initState w0 o0 s0)).weights = _
  rw [runEpochs_succ]
  exact runPhase_val_weights env standard (n + 1) _

theorem claim6_witness :
    exRes.lastWeights =
      (runPhase exEnv "acc" 2 Phase.train
        (runEpochs exEnv "acc" 1 (initState 0 () (none : Option Unit)))).weights :=
  (claim6_val_frame_lastWeights exEnv 0 () none 1 "acc" exRes
    (by with_unfolding_all decide)).2

/-- C1 (counterexample to the claim as stated): in the end-to-end
scenario — 2 epochs, `standard = "acc"`, validation accuracies
[0.70, 0.65], so no epoch strictly improves on the first — the code
returns as `bestWeights` the deep copy of the INITIAL weights taken
before the epoch loop (weights 0), not the snapshot of the weights after
the first validation phase (weights 1, produced by the training of epoch 1):
the first validation phase only fills `bestRecord` and never renews
`bestWeights`. -/
theorem claim1_counterexample :
    (trainModel exEnv 0 () (none : Option Unit) 2 "acc").map (fun r => r.trainAcc.valH) =
        Except.ok [7/10, 13/20] ∧
      (trainModel exEnv 0 () (none : Option Unit) 2 "acc").map (fun r => r.bestWeights) =
        Except.ok 0 ∧
      (runEpochs exEnv "acc" 1 (initState 0 () (none : Option Unit))).weights = 1 ∧
      (0 : ℕ) ≠ 1 := by
  refine ⟨?_, ?_, ?_, by decide⟩ <;> with_unfolding_all decide

/-- C1 (amended): for every run in which no validation epoch strictly
improves on the metric of the first validation epoch (per the chosen
standard), the returned `bestWeights` equals the deep copy of the
initial model weights taken before the first epoch (the pre-loop
baseline `w0`) — not the post-epoch-1 weights. -/
theorem claim1_no_improvement_initial_snapshot (env : TrainEnv W O S B) (w0 : W) (o0 : O)
    (s0 : Option S) (numEpochs : ℕ) (standard : String) (res : TrainResult W O S)
    (hrun : trainModel env w0 o0 s0 numEpochs standard = Except.ok res)
    (hnoimp :
      (standard = "acc" ∧ ∃ m1 t, res.trainAcc.valH = m1 :: t ∧
          ∀ x ∈ res.trainAcc.valH, x ≤ m1) ∨
        (standard = "loss" ∧ ∃ m1 t, res.trainLoss.valH = m1 :: t ∧
          ∀ x ∈ res.trainLoss.valH, m1 ≤ x)) :
    res.bestWeights = w0 := by
  obtain ⟨hmem, hres, hsome⟩ := trainModel_ok env w0 o0 s0 numEpochs standard res hrun
  rcases hnoimp with ⟨hstd, m1, t, hv, hall⟩ | ⟨hstd, m1, t, hv, hall⟩
  · subst hstd
    subst hres
    have hinv : accInv w0 (runEpochs env "acc" numEpochs (initState w0 o0 s0)) :=
      accInv_runEpochs env numEpochs w0 (initState w0 o0 s0) ⟨rfl, rfl⟩
    obtain ⟨r, hbr⟩ := Option.isSome_iff_exists.mp hsome
    obtain ⟨h0, t2, hv2, hrmem, hle, hcond⟩ := accInv_some_elim hinv hbr
    have hv' : (runEpochs env "acc" numEpochs (initState w0 o0 s0)).trainAcc.valH =
        m1 :: t := hv
    rw [hv'] at hv2
    obtain ⟨hhead, htail⟩ := List.cons.inj hv2
    show (runEpochs env "acc" numEpochs (initState w0 o0 s0)).bestWeights = w0
    apply hcond
    have hr1 : r ≤ m1 := by
      apply hall
      show r ∈ (runEpochs env "acc" numEpochs (initState w0 o0 s0)).trainAcc.valH
      rw [hv', hhead, htail]
      exact hrmem
    have hr2 : m1 ≤ r := by
      apply hle
      rw [hhead]
      exact List.mem_cons_self h0 t2
    rw [← hhead]
    exact le_antisymm hr1 hr2
  · subst hstd
    subst hres
    have hinv : lossInv w0 (runEpochs env "loss" numEpochs (initState w0 o0 s0)) :=
      lossInv_runEpochs env numEpochs w0 (initState w0 o0 s0) ⟨rfl, rfl⟩
    obtain ⟨r, hbr⟩ := Option.isSome_iff_exists.mp hsome
    obtain ⟨h0, t2, hv2, hrmem, hle, hcond⟩ := lossInv_some_elim hinv hbr
    have hv' : (runEpochs env "loss" numEpochs (initState w0 o0 s0)).trainLoss.valH =
        m1 :: t := hv
    rw [hv'] at hv2
    obtain ⟨hhead, htail⟩ := List.cons.inj hv2
    show (runEpochs env "loss" numEpochs (initState w0 o0 s0)).bestWeights = w0
    apply hcond
    have hr1 : m1 ≤ r := by
      apply hall
      show r ∈ (runEpochs env "loss" numEpochs (initState w0 o0 s0)).trainLoss.valH
      rw [hv', hhead, htail]
      exact hrmem
    have hr2 : r ≤ m1 := by
      apply hle
      rw [hhead]
      exact List.mem_cons_self h0 t2
    rw [← hhead]
    exact le_antisymm hr2 hr1

theorem claim1_witness : exRes.bestWeights = 0 :=
  claim1_no_improvement_initial_snapshot exEnv 0 () none 2 "acc" exRes
    (by with_unfolding_all decide)
    (Or.inl ⟨rfl, 7/10, [13/20], by with_unfolding_all decide,
      by with_unfolding_all decide⟩)

end Claims

end Tao
